import Mathlib

/-!
Verification of the layosh session broker (Go sources) against its
natural-language specification.  The Go code is shallowly embedded:
byte slices become `List Nat` (a newline byte is `10`), strings handled
by the interactive wrapper become `List Char`, fallible operations
return `Except`/`Option`, and the stateful server/wrapper loops become
explicit state-passing step functions.  Every definition is translated
from the corresponding Go function, keeping its name where Lean allows.
-/

/-! ## Last-line buffers (server.go: getLastLine, keepLastLine) -/

/-- The scanning loop inside `getLastLine` (server.go).  Walking the data
byte by byte, it counts newlines and remembers the suffix that follows
the most recent newline seen so far (`last = data[i+1:]`). -/
def getLastLineLoop : List Nat → Nat → List Nat → Nat × List Nat
  | [], n, last => (n, last)
  | b :: rest, n, last =>
      if b = 10 then getLastLineLoop rest (n + 1) rest
      else getLastLineLoop rest n last

/-- Function `getLastLine` (server.go): returns the number of newlines in `data`
and the current line after the last newline; when `data` holds no
newline it returns `(0, data)`. -/
def getLastLine (data : List Nat) : Nat × List Nat :=
  let r := getLastLineLoop data 0 []
  if r.1 = 0 then (0, data) else r

/-- Function `keepLastLine` (server.go): the buffer update.  If the chunk has no
newline the previous buffer grows by appending (`slices.Concat`),
otherwise the buffer is replaced by the chunk's last line. -/
def keepLastLine (lastLine data : List Nat) : List Nat :=
  let r := getLastLine data
  if r.1 = 0 then lastLine ++ data else r.2

/-- Specification-side description of "the bytes after the most recent
newline" of a stream: the suffix of the stream after its last `10`
byte, or the whole stream when it has none. -/
def tailAfterLastNewline : List Nat → List Nat
  | [] => []
  | b :: rest =>
      if 10 ∈ rest then tailAfterLastNewline rest
      else if b = 10 then rest else b :: tailAfterLastNewline rest

lemma getLastLineLoop_of_not_mem (data : List Nat) (n : Nat) (last : List Nat)
    (h : 10 ∉ data) : getLastLineLoop data n last = (n, last) := by
  induction data generalizing n last with
  | nil => rfl
  | cons b rest ih =>
      have hb : b ≠ 10 := fun hb => h (hb ▸ List.mem_cons_self b rest)
      have hrest : 10 ∉ rest := fun hr => h (List.mem_cons_of_mem b hr)
      simp [getLastLineLoop, hb, ih _ _ hrest]

lemma getLastLineLoop_fst_lt (data : List Nat) (n : Nat) (last : List Nat)
    (h : 10 ∈ data) : n < (getLastLineLoop data n last).1 := by
  induction data generalizing n last with
  | nil => cases h
  | cons b rest ih =>
      by_cases hb : b = 10
      · subst hb
        simp only [getLastLineLoop, if_pos rfl]
        by_cases hr : 10 ∈ rest
        · exact Nat.lt_trans (Nat.lt_succ_self n) (ih _ _ hr)
        · rw [getLastLineLoop_of_not_mem rest _ _ hr]
          exact Nat.lt_succ_self n
      · have hr : 10 ∈ rest := by
          rcases List.mem_cons.mp h with h1 | h1
          · exact absurd h1.symm hb
          · exact h1
        simp only [getLastLineLoop, if_neg hb]
        exact ih _ _ hr

lemma getLastLineLoop_snd_eq (data : List Nat) (n : Nat) (last : List Nat)
    (h : 10 ∈ data) :
    (getLastLineLoop data n last).2 = tailAfterLastNewline data := by
  induction data generalizing n last with
  | nil => cases h
  | cons b rest ih =>
      by_cases hb : b = 10
      · subst hb
        by_cases hr : 10 ∈ rest
        · simp [getLastLineLoop, tailAfterLastNewline, hr, ih _ _ hr]
        · simp [getLastLineLoop, tailAfterLastNewline, hr,
            getLastLineLoop_of_not_mem rest _ _ hr]
      · have hr : 10 ∈ rest := by
          rcases List.mem_cons.mp h with h1 | h1
          · exact absurd h1.symm hb
          · exact h1
        simp [getLastLineLoop, tailAfterLastNewline, hb, hr, ih _ _ hr]

lemma tailAfterLastNewline_of_not_mem (data : List Nat) (h : 10 ∉ data) :
    tailAfterLastNewline data = data := by
  induction data with
  | nil => rfl
  | cons b rest ih =>
      have hb : b ≠ 10 := fun hb => h (hb ▸ List.mem_cons_self b rest)
      have hr : 10 ∉ rest := fun hr => h (List.mem_cons_of_mem b hr)
      simp [tailAfterLastNewline, hb, hr, ih hr]

lemma not_mem_tailAfterLastNewline (data : List Nat) :
    10 ∉ tailAfterLastNewline data := by
  induction data with
  | nil => simp [tailAfterLastNewline]
  | cons b rest ih =>
      by_cases hr : 10 ∈ rest
      · simp only [tailAfterLastNewline, if_pos hr]
        exact ih
      · by_cases hb : b = 10
        · subst hb
          simp only [tailAfterLastNewline, if_neg hr, if_pos rfl]
          exact hr
        · simp only [tailAfterLastNewline, if_neg hr, if_neg hb]
          intro hmem
          rcases List.mem_cons.mp hmem with h1 | h1
          · exact hb h1.symm
          · exact ih h1

/-- Master characterization of `keepLastLine`: replace by the stream
tail when the chunk contains a newline, append otherwise. -/
lemma keepLastLine_eq (lastLine data : List Nat) :
    keepLastLine lastLine data =
      if 10 ∈ data then tailAfterLastNewline data else lastLine ++ data := by
  by_cases h : 10 ∈ data
  · have h1 := getLastLineLoop_fst_lt data 0 [] h
    have h2 := getLastLineLoop_snd_eq data 0 [] h
    have hne : (getLastLineLoop data 0 []).1 ≠ 0 := Nat.pos_iff_ne_zero.mp h1
    simp only [keepLastLine, getLastLine]
    rw [if_neg hne]
    simp [hne, h2, h]
  · have h0 := getLastLineLoop_of_not_mem data 0 [] h
    simp [keepLastLine, getLastLine, h0, h]

lemma tailAfterLastNewline_append (d1 d2 : List Nat) (h : 10 ∉ d2) :
    tailAfterLastNewline (d1 ++ 10 :: d2) = d2 := by
  induction d1 with
  | nil => simp [tailAfterLastNewline, h]
  | cons c d1' ih =>
      have hmem : 10 ∈ d1' ++ 10 :: d2 := by
        simp
      simp [tailAfterLastNewline, hmem, ih]

/-- C9: For every prior buffer value B and output chunk D: if D contains
at least one newline byte, `keepLastLine` returns exactly the suffix of D
after D's last newline; if D contains no newline, it returns B with D
appended. -/
theorem keepLastLine_correct (B D : List Nat) :
    (10 ∉ D → keepLastLine B D = B ++ D) ∧
    (∀ D1 D2, D = D1 ++ 10 :: D2 → 10 ∉ D2 → keepLastLine B D = D2) := by
  constructor
  · intro h
    rw [keepLastLine_eq, if_neg h]
  · intro D1 D2 hD h2
    subst hD
    have hmem : 10 ∈ D1 ++ 10 :: D2 := by simp
    rw [keepLastLine_eq, if_pos hmem, tailAfterLastNewline_append _ _ h2]

/-- Witness for C9 at concrete inputs: a chunk without a newline appends,
a chunk with a newline replaces by its last line. -/
theorem keepLastLine_correct_witness :
    keepLastLine [97] [98] = [97, 98] ∧ keepLastLine [97] [99, 10, 98] = [98] :=
  ⟨(keepLastLine_correct [97] [98]).1 (by decide),
   (keepLastLine_correct [97] [99, 10, 98]).2 [99] [98] rfl (by decide)⟩

/-! ## Wire messages (messages.proto) and the server connection engine
(server.go: Server, handleConnection, outputToShell, outputToLLM) -/

/-- Enumeration `Role` (messages.proto): SHELL is the primary slot, LLM the
assistant slot. -/
inductive Role where
  | shell
  | llm
deriving DecidableEq

/-- Message `RegistrationMessage` (messages.proto). -/
structure RegistrationMsg where
  sessionId : Nat
  role : Role
  width : Nat
  height : Nat
deriving DecidableEq

/-- One wire message (`Message` in messages.proto): a type discriminant
with exactly one payload variant. -/
inductive Frame where
  | registration (reg : RegistrationMsg)
  | registered (maxMessageSize : Nat)
  | userInput (data : List Nat)
  | output (data : List Nat)
  | errorMsg (text : List Char)
  | resize (width height : Nat)
deriving DecidableEq

/-- The per-role input channels of the server (`shellChannel`,
`llmChannel` in server.go). -/
inductive ChannelId where
  | shellChannel
  | llmChannel
deriving DecidableEq

/-- The connection-relevant part of `Server` (server.go): the session
id, which role slots are occupied (`shellSocket`/`llmSocket`, modelled
by an optional connection id that also stands for the bound writer),
and the two last-line buffers. -/
structure ServerState where
  sessionId : Nat
  shellConn : Option Nat
  llmConn : Option Nat
  lastShellLine : List Nat
  lastLLMLine : List Nat
deriving DecidableEq

/-- Constructor `NewServer` (server.go): no client attached, both buffers empty
(nil slices). -/
def initServerState (sessionId : Nat) : ServerState :=
  ⟨sessionId, none, none, [], []⟩

/-- Result of the registration part of `handleConnection` (server.go):
the server state afterwards, the frames written to the new connection
in order, the channel the connection's inbound events are routed to
(`none` when the connection is aborted), and the resize forwarded to
the shell wrapper for a primary registration. -/
structure ConnResult where
  state : ServerState
  sent : List Frame
  accepted : Option ChannelId
  wrapperResize : Option (Nat × Nat)
deriving DecidableEq

/-- Function `handleConnection` (server.go) up to entering the read loop.  The
first frame is `none` on a decode failure.  Any failure path returns
with nothing sent; a successful registration claims the slot, resizes
the shell wrapper when the role is SHELL, and sends `Registered{1024}`
followed by one `Output` frame carrying the role's current last-line
buffer. -/
def handleConnection (s : ServerState) (connId : Nat) (firstFrame : Option Frame) :
    ConnResult :=
  match firstFrame with
  | none => ⟨s, [], none, none⟩
  | some (Frame.registration reg) =>
      if reg.sessionId ≠ s.sessionId then ⟨s, [], none, none⟩
      else if reg.role = Role.shell ∧ s.shellConn = none then
        ⟨{ s with shellConn := some connId },
         [Frame.registered 1024, Frame.output s.lastShellLine],
         some ChannelId.shellChannel, some (reg.width, reg.height)⟩
      else if reg.role = Role.llm ∧ s.llmConn = none then
        ⟨{ s with llmConn := some connId },
         [Frame.registered 1024, Frame.output s.lastLLMLine],
         some ChannelId.llmChannel, none⟩
      else ⟨s, [], none, none⟩
  | some _ => ⟨s, [], none, none⟩

/-- Function `outputToShell` (server.go, lines 245-248).  Note the source
updates the shell buffer from the LLM buffer (`keepLastLine(s.lastLLMLine,
data)`), not from the shell buffer itself. -/
def outputToShell (s : ServerState) (data : List Nat) : ServerState :=
  { s with lastShellLine := keepLastLine s.lastLLMLine data }

/-- Function `outputToLLM` (server.go, lines 250-253). -/
def outputToLLM (s : ServerState) (data : List Nat) : ServerState :=
  { s with lastLLMLine := keepLastLine s.lastLLMLine data }

/-- The central-loop events that touch the connection/buffer state:
wrapper output chunks routed per role, a connection attaching (its
first decoded frame, or `none` for a decode failure), and a
connection's read loop ending (the deferred slot release in
`handleConnection`). -/
inductive ServerEvent where
  | shellOutput (data : List Nat)
  | llmOutput (data : List Nat)
  | connect (connId : Nat) (firstFrame : Option Frame)
  | disconnect (role : Role)
deriving DecidableEq

/-- One step of the server's central loop on the modelled state. -/
def serverStep (s : ServerState) : ServerEvent → ServerState
  | ServerEvent.shellOutput d => outputToShell s d
  | ServerEvent.llmOutput d => outputToLLM s d
  | ServerEvent.connect connId f => (handleConnection s connId f).state
  | ServerEvent.disconnect Role.shell => { s with shellConn := none }
  | ServerEvent.disconnect Role.llm => { s with llmConn := none }

/-- Run a sequence of central-loop events. -/
def runServerEvents (s : ServerState) : List ServerEvent → ServerState
  | [] => s
  | e :: rest => runServerEvents (serverStep s e) rest

/-- All bytes emitted on the primary (shell) stream by an event list. -/
def shellStream : List ServerEvent → List Nat
  | [] => []
  | ServerEvent.shellOutput d :: rest => d ++ shellStream rest
  | _ :: rest => shellStream rest

/-- The last-line buffer the server replays for a role. -/
def roleBuffer (s : ServerState) : Role → List Nat
  | Role.shell => s.lastShellLine
  | Role.llm => s.lastLLMLine

/-- C1: the shell-role LastLineBuffer does not track the shell stream:
`outputToShell` seeds `keepLastLine` with the assistant buffer
(server.go line 246).  After assistant output "a" (0x61, no newline)
followed by shell output "b" (0x62, no newline), the code leaves the
shell buffer at "ab" although the bytes emitted on the shell stream
since the last newline are exactly "b". -/
theorem lastShellLine_cross_read_bug :
    (runServerEvents (initServerState 42)
        [ServerEvent.llmOutput [97], ServerEvent.shellOutput [98]]).lastShellLine
      = [97, 98] ∧
    tailAfterLastNewline (shellStream
        [ServerEvent.llmOutput [97], ServerEvent.shellOutput [98]]) = [98] ∧
    ([97, 98] : List Nat) ≠ [98] := by
  decide

lemma not_mem_keepLastLine (B D : List Nat) (hB : 10 ∉ B) :
    10 ∉ keepLastLine B D := by
  rw [keepLastLine_eq]
  by_cases h : 10 ∈ D
  · rw [if_pos h]
    exact not_mem_tailAfterLastNewline D
  · rw [if_neg h]
    intro hm
    rcases List.mem_append.mp hm with h1 | h1
    · exact hB h1
    · exact h h1

lemma handleConnection_preserves_buffers (s : ServerState) (connId : Nat)
    (f : Option Frame) :
    (handleConnection s connId f).state.lastShellLine = s.lastShellLine ∧
    (handleConnection s connId f).state.lastLLMLine = s.lastLLMLine := by
  cases f with
  | none => exact ⟨rfl, rfl⟩
  | some fr =>
      cases fr with
      | registration reg =>
          simp only [handleConnection]
          split
          · exact ⟨rfl, rfl⟩
          · split
            · exact ⟨rfl, rfl⟩
            · split
              · exact ⟨rfl, rfl⟩
              · exact ⟨rfl, rfl⟩
      | registered m => exact ⟨rfl, rfl⟩
      | userInput d => exact ⟨rfl, rfl⟩
      | output d => exact ⟨rfl, rfl⟩
      | errorMsg t => exact ⟨rfl, rfl⟩
      | resize w h => exact ⟨rfl, rfl⟩

/-- Both last-line buffers hold no newline byte. -/
def BuffersNewlineFree (s : ServerState) : Prop :=
  10 ∉ s.lastShellLine ∧ 10 ∉ s.lastLLMLine

lemma serverStep_preserves_newline_free (s : ServerState) (e : ServerEvent)
    (h : BuffersNewlineFree s) : BuffersNewlineFree (serverStep s e) := by
  cases e with
  | shellOutput d => exact ⟨not_mem_keepLastLine _ _ h.2, h.2⟩
  | llmOutput d => exact ⟨h.1, not_mem_keepLastLine _ _ h.2⟩
  | connect connId f =>
      have hb := handleConnection_preserves_buffers s connId f
      exact ⟨hb.1 ▸ h.1, hb.2 ▸ h.2⟩
  | disconnect r => cases r <;> exact h

lemma runServerEvents_newline_free (evts : List ServerEvent) (s : ServerState)
    (h : BuffersNewlineFree s) : BuffersNewlineFree (runServerEvents s evts) := by
  induction evts generalizing s with
  | nil => exact h
  | cons e rest ih => exact ih _ (serverStep_preserves_newline_free s e h)

/-- C10: neither role's LastLineBuffer ever contains a newline byte:
`keepLastLine` maps a newline-free buffer and arbitrary data to a
newline-free buffer, and from the empty initial buffers every sequence
of central-loop events keeps both buffers newline-free. -/
theorem lastLineBuffers_newline_free (sessionId : Nat) (evts : List ServerEvent) :
    (∀ B D, 10 ∉ B → 10 ∉ keepLastLine B D) ∧
    10 ∉ (runServerEvents (initServerState sessionId) evts).lastShellLine ∧
    10 ∉ (runServerEvents (initServerState sessionId) evts).lastLLMLine := by
  refine ⟨not_mem_keepLastLine, ?_⟩
  exact runServerEvents_newline_free evts (initServerState sessionId)
    ⟨List.not_mem_nil 10, List.not_mem_nil 10⟩

/-- Witness for C10 at concrete inputs. -/
theorem lastLineBuffers_newline_free_witness :
    10 ∉ keepLastLine [97] [98] ∧
    10 ∉ (runServerEvents (initServerState 42)
        [ServerEvent.llmOutput [97], ServerEvent.shellOutput [10, 98]]).lastShellLine :=
  ⟨(lastLineBuffers_newline_free 42 []).1 [97] [98] (by decide),
   (lastLineBuffers_newline_free 42
      [ServerEvent.llmOutput [97], ServerEvent.shellOutput [10, 98]]).2.1⟩

/-- C6: a Registration naming a role whose slot is occupied is aborted:
the server sends no frame, routes nothing, and leaves its state (the
existing sockets, writers and buffers) untouched. -/
theorem secondRegistration_rejected (s : ServerState) (connId : Nat)
    (reg : RegistrationMsg)
    (hocc : (reg.role = Role.shell ∧ s.shellConn ≠ none) ∨
            (reg.role = Role.llm ∧ s.llmConn ≠ none)) :
    handleConnection s connId (some (Frame.registration reg)) =
      ⟨s, [], none, none⟩ := by
  simp only [handleConnection]
  split
  · rfl
  · have h1 : ¬(reg.role = Role.shell ∧ s.shellConn = none) := by
      rintro ⟨hr, hc⟩
      rcases hocc with ⟨-, hconn⟩ | ⟨hrole, -⟩
      · exact hconn hc
      · rw [hr] at hrole
        exact absurd hrole (by decide)
    have h2 : ¬(reg.role = Role.llm ∧ s.llmConn = none) := by
      rintro ⟨hr, hc⟩
      rcases hocc with ⟨hrole, -⟩ | ⟨-, hconn⟩
      · rw [hr] at hrole
        exact absurd hrole (by decide)
      · exact hconn hc
    rw [if_neg h1, if_neg h2]

/-- Witness for C6: a shell reconnect while the shell slot is held by
connection 1 is aborted with nothing sent and the state unchanged. -/
theorem secondRegistration_rejected_witness :
    handleConnection ⟨42, some 1, none, [120], [121]⟩ 2
        (some (Frame.registration ⟨42, Role.shell, 80, 24⟩)) =
      ⟨⟨42, some 1, none, [120], [121]⟩, [], none, none⟩ :=
  secondRegistration_rejected _ 2 _ (Or.inl ⟨rfl, by decide⟩)

/-- C7: a successful registration (matching session id, free slot)
sends exactly `Registered{1024}` (so maxMessageSize ≥ 1) followed by
one Output frame carrying that role's current LastLineBuffer, before
anything else. -/
theorem successfulRegistration_sends (s : ServerState) (connId : Nat)
    (reg : RegistrationMsg)
    (hsid : reg.sessionId = s.sessionId)
    (hfree : (reg.role = Role.shell → s.shellConn = none) ∧
             (reg.role = Role.llm → s.llmConn = none)) :
    (handleConnection s connId (some (Frame.registration reg))).sent =
      [Frame.registered 1024, Frame.output (roleBuffer s reg.role)] ∧
    1 ≤ 1024 := by
  refine ⟨?_, by decide⟩
  simp only [handleConnection]
  rw [if_neg (by simp [hsid])]
  cases hrole : reg.role with
  | shell =>
      rw [if_pos ⟨rfl, hfree.1 hrole⟩]
      simp [roleBuffer]
  | llm =>
      rw [if_neg (by rintro ⟨h, -⟩; exact absurd h (by decide)),
        if_pos ⟨rfl, hfree.2 hrole⟩]
      simp [roleBuffer]

/-- Witness for C7: registering as PRIMARY for session 42 with a free
slot replays the shell buffer after `Registered{1024}`. -/
theorem successfulRegistration_sends_witness :
    (handleConnection ⟨42, none, none, [120], [121]⟩ 1
        (some (Frame.registration ⟨42, Role.shell, 80, 24⟩))).sent =
      [Frame.registered 1024, Frame.output [120]] ∧ 1 ≤ 1024 :=
  successfulRegistration_sends _ 1 _ rfl ⟨fun _ => rfl, fun _ => rfl⟩

/-- C8: a Registration with a session id different from the server's is
rejected exactly like a malformed frame: the result coincides with the
decode-failure result, nothing is sent, nothing routed, state
unchanged. -/
theorem sessionMismatch_rejected (s : ServerState) (connId : Nat)
    (reg : RegistrationMsg)
    (h : reg.sessionId ≠ s.sessionId) :
    handleConnection s connId (some (Frame.registration reg)) =
      handleConnection s connId none ∧
    handleConnection s connId (some (Frame.registration reg)) =
      ⟨s, [], none, none⟩ := by
  constructor <;> simp only [handleConnection, if_pos h]

/-- Witness for C8: session id 7 against a server configured with 42. -/
theorem sessionMismatch_rejected_witness :
    handleConnection ⟨42, none, none, [], []⟩ 1
        (some (Frame.registration ⟨7, Role.shell, 80, 24⟩)) =
      handleConnection ⟨42, none, none, [], []⟩ 1 none ∧
    handleConnection ⟨42, none, none, [], []⟩ 1
        (some (Frame.registration ⟨7, Role.shell, 80, 24⟩)) =
      ⟨⟨42, none, none, [], []⟩, [], none, none⟩ :=
  sessionMismatch_rejected _ 1 _ (by decide)

/-! ## The interactive assistant wrapper
(llm_wrapper.go: parseCommand, handleCommand, handleLine; Settings from
the settings source file) -/

/-- White space accepted by Go's strings.TrimSpace on the inputs the
wrapper sees (ASCII plus the two Latin-1 space code points). -/
def isGoSpace (c : Char) : Bool :=
  c == ' ' || c == '\t' || c == '\n' || c == '\x0B' || c == '\x0C' ||
    c == '\r' || c == '\x85' || c == '\xA0'

/-- Model of strings.TrimSpace: drop white space from both ends. -/
def trimSpace (s : List Char) : List Char :=
  ((s.dropWhile isGoSpace).reverse.dropWhile isGoSpace).reverse

/-- Split at the first space character, for strings.SplitN(s, " ", 2):
returns the parts before and after the first space, or nothing when the
string holds no space. -/
def splitFirstSpace : List Char → Option (List Char × List Char)
  | [] => none
  | c :: rest =>
      if c = ' ' then some ([], rest)
      else
        match splitFirstSpace rest with
        | some (a, b) => some (c :: a, b)
        | none => none

/-- Model of strings.SplitN(s, " ", 2): one part when there is no
space, otherwise the prefix before the first space and all the rest. -/
def splitN2 (s : List Char) : List (List Char) :=
  match splitFirstSpace s with
  | some (a, b) => [a, b]
  | none => [s]

/-- Model of Go strconv.ParseBool: the pair is (parsed value, ok).  On
any unrecognized literal Go returns the zero value false together with
an error, modelled by ok = false. -/
def parseBoolGo (value : List Char) : Bool × Bool :=
  if value = "1".data ∨ value = "t".data ∨ value = "T".data ∨
      value = "TRUE".data ∨ value = "true".data ∨ value = "True".data then
    (true, true)
  else if value = "0".data ∨ value = "f".data ∨ value = "F".data ∨
      value = "FALSE".data ∨ value = "false".data ∨ value = "False".data then
    (false, true)
  else (false, false)

/-- The three wrapper settings (Settings in the settings source file). -/
structure Settings where
  debug : Bool
  review : Bool
  verbose : Bool
deriving DecidableEq

/-- Constructor NewSettings: all three settings start false. -/
def NewSettings : Settings :=
  ⟨false, false, false⟩

/-- Method UpdateFromString on Settings.  Faithful to the source: the
ParseBool result is assigned to the field before the error is examined,
so an invalid boolean value resets the field to false and the error is
returned; an unknown key changes nothing and returns an error. -/
def UpdateFromString (s : Settings) (key value : List Char) :
    Settings × Option (List Char) :=
  if key = "debug".data then
    let r := parseBoolGo value
    ({ s with debug := r.1 },
     if r.2 then none else some ("invalid value for debug: ".data ++ value))
  else if key = "review".data then
    let r := parseBoolGo value
    ({ s with review := r.1 },
     if r.2 then none else some ("invalid value for review: ".data ++ value))
  else if key = "verbose".data then
    let r := parseBoolGo value
    ({ s with verbose := r.1 },
     if r.2 then none else some ("invalid value for verbose: ".data ++ value))
  else (s, some ("unknown setting: ".data ++ key))

/-- Rendering of a boolean by fmt's %v verb. -/
def boolStr (b : Bool) : List Char :=
  if b then "true".data else "false".data

/-- Method Describe on Settings. -/
def describeSettings (s : Settings) : List Char :=
  "Current Settings:\ndebug: ".data ++ boolStr s.debug ++
    "\nreview: ".data ++ boolStr s.review ++
    "\nverbose: ".data ++ boolStr s.verbose ++ "\n".data

/-- Model of strings.Split(s, "\n") as used by adjustNewlines. -/
def splitOnNewline : List Char → List (List Char)
  | [] => [[]]
  | c :: rest =>
      if c = '\n' then [] :: splitOnNewline rest
      else
        match splitOnNewline rest with
        | [] => [[c]]
        | h :: t => (c :: h) :: t

/-- Model of strings.TrimRight(line, "\r\n"). -/
def trimRightCRLF (l : List Char) : List Char :=
  (l.reverse.dropWhile (fun c => c == '\r' || c == '\n')).reverse

/-- Model of strings.Join(lines, "\r\n"). -/
def joinCRLF : List (List Char) → List Char
  | [] => []
  | [x] => x
  | x :: xs => x ++ "\r\n".data ++ joinCRLF xs

/-- Function adjustNewlines (llm_wrapper.go): split on newline, trim
each line's trailing carriage returns and newlines, join with CRLF. -/
def adjustNewlines (s : List Char) : List Char :=
  joinCRLF ((splitOnNewline s).map trimRightCRLF)

/-- Method generateHelpMessage on LLMWrapper (llm_wrapper.go). -/
def generateHelpMessage : List Char :=
  ("Lash LLM Help\nLash LLM is a shell command suggestion engine. " ++
   "It uses the LLM to suggest shell commands based on the request " ++
   "of the user and the shell history.\nCommands:\n" ++
   "- /quit: Quit the LLM\n- /clear: Clear the shell and LLM history\n" ++
   "- /set <key> <value>: Set a configuration key to a value\n" ++
   "- /help: Show this help message\n- /settings: Show the current settings\n" ++
   "- /show: Show the current shell command\n").data

/-- The local commands recognized by parseCommand (llm_wrapper.go):
QuitCommand, ClearHistoryCommand, UpdateSettingsCommand, HelpCommand
and ShowSettingsCommand. -/
inductive LocalCommand where
  | quitCommand
  | clearHistoryCommand
  | updateSettingsCommand (key value : List Char)
  | helpCommand
  | showSettingsCommand
deriving DecidableEq

/-- Function parseCommand (llm_wrapper.go): a line shorter than two
bytes or one that does not start with a slash is not a command; a
recognized slash command yields its command value; an unrecognized or
malformed slash command yields an error. -/
def parseCommand (line : List Char) :
    Except (List Char) (Option LocalCommand) :=
  if line.length < 2 then Except.ok none
  else
    match line with
    | '/' :: _ =>
        let trimmed := (trimSpace line).drop 1
        if trimmed = "q".data ∨ trimmed = "quit".data then
          Except.ok (some LocalCommand.quitCommand)
        else if trimmed = "h".data ∨ trimmed = "help".data then
          Except.ok (some LocalCommand.helpCommand)
        else if trimmed = "c".data ∨ trimmed = "clear".data then
          Except.ok (some LocalCommand.clearHistoryCommand)
        else if ("set ".data).isPrefixOf trimmed then
          match splitN2 (trimmed.drop 4) with
          | [k, v] => Except.ok (some (LocalCommand.updateSettingsCommand k v))
          | _ => Except.error "invalid set command".data
        else if trimmed = "settings".data then
          Except.ok (some LocalCommand.showSettingsCommand)
        else Except.error ("unknown command: ".data ++ trimmed)
    | _ => Except.ok none

/-- Observable effects of the wrapper on its outward event stream:
colored text rendered to the assistant output (outputToTerminal), raw
text sent on the output channel, an error event (the main loop sends a
non-nil handleLine error on the channel), the Quit event, and a
dispatched Suggestion request carrying the two history snapshots and
the request text (the random request id is not modelled). -/
inductive Effect where
  | terminalOut (data : List Char)
  | channelOut (data : List Char)
  | errorEvent (msg : List Char)
  | quitEvent
  | request (shellHistory llmHistory requestText : List Char)
deriving DecidableEq

/-- Method outputToTerminal on LLMWrapper: wraps the text in blue
color escapes before sending it on the output channel. -/
def outputToTerminal (data : List Char) : Effect :=
  Effect.terminalOut ("\x1b[34m".data ++ data ++ "\x1b[0m".data)

/-- The mutable state of LLMWrapper that the submitted-line path
touches: the two history buffers and the settings. -/
structure LLMWrapperState where
  shellHistory : List Char
  llmHistory : List Char
  settings : Settings
deriving DecidableEq

/-- Constructor NewLLMWrapper: empty histories, default settings. -/
def initLLMWrapperState : LLMWrapperState :=
  ⟨[], [], NewSettings⟩

/-- Method handleCommand on LLMWrapper (llm_wrapper.go).  Note the
UpdateSettingsCommand branch calls UpdateFromString and discards its
returned error: nothing is rendered on an invalid value. -/
def handleCommand (st : LLMWrapperState) (cmd : LocalCommand) :
    LLMWrapperState × List Effect :=
  match cmd with
  | LocalCommand.quitCommand => (st, [Effect.quitEvent])
  | LocalCommand.clearHistoryCommand =>
      ({ st with shellHistory := [], llmHistory := [] }, [])
  | LocalCommand.updateSettingsCommand key value =>
      ({ st with settings := (UpdateFromString st.settings key value).1 }, [])
  | LocalCommand.helpCommand =>
      (st, [outputToTerminal (adjustNewlines generateHelpMessage)])
  | LocalCommand.showSettingsCommand =>
      (st, [Effect.channelOut (adjustNewlines (describeSettings st.settings))])

/-- Method handleLine on LLMWrapper (llm_wrapper.go): append the line
and a newline to the assistant history, then either render a parse
error (which the main loop also forwards as an error event), run the
local command, or — for a non-empty trimmed line — dispatch a
Suggestion request snapshotting both histories. -/
def handleLine (st : LLMWrapperState) (line : List Char) :
    LLMWrapperState × List Effect :=
  let st1 := { st with llmHistory := st.llmHistory ++ line ++ ['\n'] }
  match parseCommand line with
  | Except.error e =>
      (st1, [outputToTerminal ("Error: ".data ++ e ++ "\r\n".data),
             Effect.errorEvent e])
  | Except.ok (some cmd) => handleCommand st1 cmd
  | Except.ok none =>
      let t := trimSpace line
      if t.length = 0 then (st1, [])
      else (st1, [Effect.request st1.shellHistory st1.llmHistory t])

/-- The AddShellHistoryCommand branch of the wrapper's main loop:
shell traffic is appended to the shell history with a newline. -/
def addShellHistory (st : LLMWrapperState) (data : List Char) : LLMWrapperState :=
  { st with shellHistory := st.shellHistory ++ data ++ ['\n'] }

/-- C2: submitting "/set verbose true" sets verbose and renders
nothing, as the claim states; but submitting "/set verbose maybe" then
resets verbose to false (ParseBool assigns its zero value before the
error is checked) and renders nothing at all (handleCommand discards
the UpdateFromString error), contradicting the claim that Settings
stay unchanged and an error is rendered. -/
theorem setVerbose_error_discarded :
    ((handleLine initLLMWrapperState ("/set verbose true".data)).1.settings.verbose
        = true ∧
     (handleLine initLLMWrapperState ("/set verbose true".data)).2 = []) ∧
    ((handleLine (handleLine initLLMWrapperState ("/set verbose true".data)).1
        ("/set verbose maybe".data)).1.settings.verbose = false ∧
     (handleLine (handleLine initLLMWrapperState ("/set verbose true".data)).1
        ("/set verbose maybe".data)).2 = []) := by
  exact ⟨⟨rfl, rfl⟩, ⟨rfl, rfl⟩⟩

/-- Counterexample to C3 as stated: after "/clear" both buffers are
empty, but the next Suggestion request (line "hello", no intervening
shell traffic) carries llmHistory "hello\n", not an empty field,
because handleLine appends the line to the assistant history before
snapshotting it into the request. -/
theorem clear_request_counterexample :
    ((handleLine initLLMWrapperState ("/clear".data)).1.shellHistory = [] ∧
     (handleLine initLLMWrapperState ("/clear".data)).1.llmHistory = []) ∧
    (handleLine (handleLine initLLMWrapperState ("/clear".data)).1
        ("hello".data)).2 =
      [Effect.request [] ("hello\n".data) ("hello".data)] ∧
    ("hello\n".data : List Char) ≠ [] := by
  refine ⟨⟨rfl, rfl⟩, rfl, ?_⟩
  decide

/-- C3 (amended): a submitted "/clear" empties both history buffers,
and the next Suggestion request dispatched afterwards (a non-command,
non-empty line, with no intervening shell traffic) carries an empty
shellHistory field and an llmHistory field holding exactly the
submitted line followed by a newline. -/
theorem clear_then_request (st : LLMWrapperState) (line : List Char)
    (h1 : parseCommand line = Except.ok none)
    (h2 : (trimSpace line).length ≠ 0) :
    (handleLine st ("/clear".data)).1.shellHistory = [] ∧
    (handleLine st ("/clear".data)).1.llmHistory = [] ∧
    (handleLine (handleLine st ("/clear".data)).1 line).2 =
      [Effect.request [] (line ++ ['\n']) (trimSpace line)] := by
  have hclear : (handleLine st ("/clear".data)).1 =
      { st with shellHistory := [], llmHistory := [] } := rfl
  refine ⟨by rw [hclear], by rw [hclear], ?_⟩
  rw [hclear]
  simp only [handleLine, h1]
  rw [if_neg h2]
  simp

/-- Witness for C3 (amended) at the concrete line "world". -/
theorem clear_then_request_witness :
    (handleLine initLLMWrapperState ("/clear".data)).1.shellHistory = [] ∧
    (handleLine initLLMWrapperState ("/clear".data)).1.llmHistory = [] ∧
    (handleLine (handleLine initLLMWrapperState ("/clear".data)).1
        ("world".data)).2 =
      [Effect.request [] ("world".data ++ ['\n']) (trimSpace ("world".data))] :=
  clear_then_request initLLMWrapperState ("world".data) rfl (by decide)

/-! ## The process wrapper (shell_wrapper.go) -/

/-- Outcome of the argv handling in Start on ShellWrapper: either the
child process is launched from the head and tail of the command list,
or the wrapper hits the Go runtime panic for an out-of-range index. -/
inductive StartOutcome where
  | panicked
  | launched (progName : String) (args : List String)
deriving DecidableEq

/-- Method Start on ShellWrapper (shell_wrapper.go): it builds
exec.Command(command[0], command[1:]...) with no emptiness check, so an
empty command list hits the index-out-of-range panic instead of an
error return. -/
def shellWrapperStart (command : List String) : StartOutcome :=
  match command with
  | [] => StartOutcome.panicked
  | c :: cs => StartOutcome.launched c cs

/-- C4: on an empty argv-style command list the Process Wrapper start
crashes (Go runtime panic on command[0]) rather than returning a usage
error to the caller. -/
theorem start_empty_command_panics :
    shellWrapperStart [] = StartOutcome.panicked := rfl

/-! ## The client registration and read loop (client.go) -/

/-- Method Register on Client (client.go), after the Registration frame
is sent: it reads exactly one frame from the inbound stream.  No frame
(read or decode failure) or a frame that is not Registered fails
registration; otherwise the advertised maxMessageSize is captured,
defaulting to 1024 when the server advertises 0, and the rest of the
stream is left unread. -/
def clientRegister (frames : List Frame) :
    Except (List Char) (Nat × List Frame) :=
  match frames with
  | [] => Except.error "read error".data
  | Frame.registered m :: rest =>
      Except.ok ((if 0 < m then m else 1024), rest)
  | _ :: _ => Except.error "expected REGISTERED message".data

/-- The inbound reader loop of Start on Client (client.go): each Output
payload is written to local output, an Error frame or a read failure
ends the loop, and any other frame is skipped.  Returns the payloads
written, in order. -/
def clientReadLoop : List Frame → List (List Nat)
  | [] => []
  | Frame.output d :: rest => d :: clientReadLoop rest
  | Frame.errorMsg _ :: _ => []
  | _ :: rest => clientReadLoop rest

/-- Counterexample to C5 as stated: with inbound stream
[Registered{1024}, UserInput{[7]}] the claim demands a fatal
registration failure (the second frame is not an Output frame), but
Register succeeds after reading only the first frame, and the read
loop then skips the unexpected frame without failing. -/
theorem clientRegister_counterexample :
    clientRegister [Frame.registered 1024, Frame.userInput [7]] =
      Except.ok (1024, [Frame.userInput [7]]) ∧
    clientReadLoop [Frame.userInput [7]] = [] := by
  exact ⟨rfl, rfl⟩

/-- C5 (amended): Register requires only the next single frame to be a
Registered frame, capturing the advertised maxMessageSize and
defaulting to 1024 when the server advertises 0; a read failure or any
other frame type in that first frame fails registration fatally.  The
replay Output frame is consumed by the inbound read loop, which writes
its payload to local output. -/
theorem clientRegister_amended (m : Nat) (d : List Nat) (rest : List Frame) :
    clientRegister (Frame.registered m :: Frame.output d :: rest) =
      Except.ok ((if 0 < m then m else 1024), Frame.output d :: rest) ∧
    clientReadLoop (Frame.output d :: rest) = d :: clientReadLoop rest ∧
    clientRegister [] = Except.error "read error".data ∧
    (∀ f rest2, (∀ k, f ≠ Frame.registered k) →
      ∃ e, clientRegister (f :: rest2) = Except.error e) := by
  refine ⟨rfl, rfl, rfl, ?_⟩
  intro f rest2 hf
  cases f with
  | registration reg => exact ⟨_, rfl⟩
  | registered k => exact absurd rfl (hf k)
  | userInput d2 => exact ⟨_, rfl⟩
  | output d2 => exact ⟨_, rfl⟩
  | errorMsg t => exact ⟨_, rfl⟩
  | resize w h => exact ⟨_, rfl⟩

/-- Witness for C5 (amended): an advertised size of 0 defaults to 1024,
the replay payload is written, and a non-Registered first frame fails
registration. -/
theorem clientRegister_amended_witness :
    clientRegister [Frame.registered 0, Frame.output [97]] =
      Except.ok (1024, [Frame.output [97]]) ∧
    clientReadLoop [Frame.output [97]] = [[97]] ∧
    (∃ e, clientRegister [Frame.userInput [7]] = Except.error e) :=
  ⟨(clientRegister_amended 0 [97] []).1,
   (clientRegister_amended 0 [97] []).2.1,
   (clientRegister_amended 0 [97] []).2.2.2 (Frame.userInput [7]) []
     (by intro k h; exact Frame.noConfusion h)⟩
